import Mathlib

set_option autoImplicit false

/-!
Shallow embedding of the polyglot-pigeon email pipeline core:
the processing pipelines (`scheduler/pipeline.py`), the scheduler's
one-shot cycle (`scheduler/scheduler.py`), the IMAP reader's query
construction, fetch and flag operations (`mail/reader.py`), the SMTP
sender's bounded-retry loop (`mail/sender.py`), and the entry point's
run-once branch (`main.py`).
-/

namespace PolyglotPigeon

/-- Modelled from the spec: the `Email` record (imported in the source as
`polyglot_pigeon.models.models.Email` but its defining module is not part of
the snapshot). Fields follow the spec's Message data model: opaque id,
subject, sender, timestamp, plain-text body, optional HTML body. The
timestamp is abstracted to an integer instant. -/
structure Email where
  uid : String
  subject : String
  sender : String
  date : Int
  body_text : String
  body_html : Option String := none
deriving Repr, DecidableEq

/-- `ProcessingResult` dataclass from `scheduler/pipeline.py`: counts of
processed and sent emails plus the ordered error strings. -/
structure ProcessingResult where
  emails_processed : Nat
  emails_sent : Nat
  errors : List String
deriving Repr, DecidableEq

namespace PlaceholderPipeline

/-- `PlaceholderPipeline.process` from `scheduler/pipeline.py`: logs the
emails and returns `ProcessingResult(len(emails), 0, [])`. -/
def process (emails : List Email) : ProcessingResult :=
  { emails_processed := emails.length
    emails_sent := 0
    errors := [] }

end PlaceholderPipeline

/-- Modelled from the spec: the body of the `try` block in
`EmailProcessingPipeline.process` (build a prompt, call the LLM, send the
transformed content via SMTP) is a TODO placeholder in the source, so the
per-email transform-and-deliver step is abstracted as a fallible function:
`.ok ()` when transformation and delivery complete successfully, `.error m`
when the step raises an exception rendered as the message `m`. -/
def PerEmailStep : Type := Email → Except String Unit

/-- Whether the per-email step completes without raising. -/
def stepSucceeds (step : PerEmailStep) (e : Email) : Bool :=
  match step e with
  | .ok _ => true
  | .error _ => false

/-- The error string appended by `EmailProcessingPipeline.process` when the
step for `e` raises: `f"Failed to process {email.uid}: {e}"`. -/
def failureString (e : Email) (msg : String) : String :=
  "Failed to process " ++ e.uid ++ ": " ++ msg

/-- The error entry produced for an email, if any. -/
def errEntry (step : PerEmailStep) (e : Email) : Option String :=
  match step e with
  | .ok _ => none
  | .error msg => some (failureString e msg)

namespace EmailProcessingPipeline

/-- The per-email loop of `EmailProcessingPipeline.process`: for each email,
run the step inside `try`; on success increment `emails_sent`, on an
exception append the formatted error string and continue with the next
email. Returns the final `emails_sent` count and error list. -/
def processLoop (step : PerEmailStep) : List Email → Nat × List String
  | [] => (0, [])
  | e :: rest =>
    let t := processLoop step rest
    match step e with
    | .ok _ => (t.1 + 1, t.2)
    | .error msg => (t.1, failureString e msg :: t.2)

/-- `EmailProcessingPipeline.process` from `scheduler/pipeline.py`: returns
`ProcessingResult(0, 0, [])` for an empty input, otherwise iterates every
email through the guarded step and returns
`ProcessingResult(len(emails), emails_sent, errors)`. -/
def process (step : PerEmailStep) (emails : List Email) : ProcessingResult :=
  if emails.isEmpty then
    { emails_processed := 0, emails_sent := 0, errors := [] }
  else
    { emails_processed := emails.length
      emails_sent := (processLoop step emails).1
      errors := (processLoop step emails).2 }

end EmailProcessingPipeline

/-- `SourceEmailConfig` from `models/configurations.py`, restricted to the
fields the core reads: the lookback window in days and the mark-as-read
flag. -/
structure SourceEmailConfig where
  fetch_days : Nat
  mark_as_read : Bool
deriving Repr, DecidableEq

/-- `ScheduleConfig` from `models/configurations.py`. -/
structure ScheduleConfig where
  time : String
  timezone : String
  enabled : Bool
deriving Repr, DecidableEq

namespace EmailScheduler

/-- Observable outcome of one `EmailScheduler.run_once` cycle: the returned
`ProcessingResult` and the list of `_mark_emails_processed` calls made, each
recorded as the uid list it was passed. -/
structure RunOnceTrace where
  result : ProcessingResult
  markCalls : List (List String)
deriving Repr, DecidableEq

/-- `EmailScheduler.run_once` from `scheduler/scheduler.py`, with the
fetched emails and the pipeline's `process` abstracted as inputs: it runs
`processFn` on the fetched emails and, exactly when
`result.emails_processed > 0` and the source configuration's
`mark_as_read` flag is set, makes a single `_mark_emails_processed` call
with `[e.uid for e in emails]`. -/
def run_once (source : SourceEmailConfig) (emails : List Email)
    (processFn : List Email → ProcessingResult) : RunOnceTrace :=
  { result := processFn emails
    markCalls :=
      if 0 < (processFn emails).emails_processed
          ∧ source.mark_as_read = true then
        [emails.map Email.uid]
      else
        [] }

end EmailScheduler

namespace EmailReader

/-- `EmailReader._build_search_criteria` from `mail/reader.py`: collect the
`UNSEEN` predicate when `unread_only` holds, add a `SINCE "<date>"` clause
when `fetch_days > 0` (the rendered date string is passed in as `date_str`),
return `ALL` when no predicate applies, and otherwise join the parts with
spaces inside one pair of parentheses. -/
def build_search_criteria (unread_only : Bool) (fetch_days : Nat)
    (date_str : String) : String :=
  let criteria_parts : List String :=
    (if unread_only then ["UNSEEN"] else []) ++
      (if 0 < fetch_days then ["SINCE \"" ++ date_str ++ "\""] else [])
  if criteria_parts.isEmpty then "ALL"
  else "(" ++ String.intercalate " " criteria_parts ++ ")"

/-- Observable outcome of `EmailReader.fetch_emails`: the returned emails
and the uids for which `_fetch_single_email` was invoked. -/
structure FetchTrace where
  emails : List Email
  fetchedUids : List String
deriving Repr, DecidableEq

/-- `EmailReader.fetch_emails` from `mail/reader.py`, with the search
reply and the per-uid fetch abstracted as inputs: if the search status is
not `OK` it logs and returns the empty list without fetching anything;
otherwise it fetches each returned uid and keeps the successfully parsed
emails (`_fetch_single_email` returning `None` skips that message). -/
def fetch_emails (search_status : String) (message_ids : List String)
    (fetch_single : String → Option Email) : FetchTrace :=
  if search_status ≠ "OK" then
    { emails := [], fetchedUids := [] }
  else
    { emails := message_ids.filterMap fetch_single
      fetchedUids := message_ids }

/-- `EmailReader.mark_as_read` from `mail/reader.py`, with the IMAP
`store uid "+FLAGS" "\Seen"` call abstracted as a fallible input: the loop
body has no exception handler, so the uids are attempted in order and the
first store that raises propagates, leaving the remaining uids
unattempted. Returns the attempted uids and the propagated error, if
any. -/
def mark_as_read {ε : Type} (store : String → Except ε Unit) :
    List String → List String × Option ε
  | [] => ([], none)
  | uid :: rest =>
    match store uid with
    | .ok _ =>
      let t := mark_as_read store rest
      (uid :: t.1, t.2)
    | .error e => ([uid], some e)

/-- `EmailReader.add_label` from `mail/reader.py`, with the IMAP
`store uid "+X-GM-LABELS" ...` call abstracted as a fallible input: each
store is wrapped in `try/except imaplib.IMAP4.error`, which logs and
continues, so every uid is attempted and no per-uid protocol error
propagates. Returns the attempted uids. -/
def add_label {ε : Type} (store : String → Except ε Unit) :
    List String → List String
  | [] => []
  | uid :: rest =>
    match store uid with
    | .ok _ => uid :: add_label store rest
    | .error _ => uid :: add_label store rest

end EmailReader

/-- The exception classes relevant to the sender's
`except RETRYABLE_EXCEPTIONS` clause in `mail/sender.py`, where
`RETRYABLE_EXCEPTIONS = (socket.timeout, TimeoutError, OSError)`. -/
inductive PyExc where
  | socketTimeout
  | timeoutError
  | osError
  | smtpException
  | smtpResponseException
  | smtpAuthenticationError
  | runtimeError
  | valueError
deriving Repr, DecidableEq

namespace PyExc

/-- Direct base class of each exception class, following the Python
standard library: `socket.timeout` is `TimeoutError`, `TimeoutError` is a
subclass of `OSError`, `smtplib.SMTPException` is a subclass of `OSError`
(documented in `smtplib` since Python 3.4), `SMTPAuthenticationError` is a
`SMTPResponseException` which is a `SMTPException`; `RuntimeError` and
`ValueError` derive directly from `Exception`. -/
def base : PyExc → Option PyExc
  | socketTimeout => some timeoutError
  | timeoutError => some osError
  | osError => none
  | smtpException => some osError
  | smtpResponseException => some smtpException
  | smtpAuthenticationError => some smtpResponseException
  | runtimeError => none
  | valueError => none

/-- Whether class `t` is `c` or a (transitive) subclass of it, walking at
most `fuel` steps up the base-class chain. -/
def isSubclassAux : Nat → PyExc → PyExc → Bool
  | 0, _, _ => false
  | fuel + 1, t, c =>
    if t = c then true
    else
      match t.base with
      | some b => isSubclassAux fuel b c
      | none => false

/-- Whether class `t` is `c` or a (transitive) subclass of it; every
base-class chain above has fewer than 8 links. -/
def isSubclass (t c : PyExc) : Bool :=
  isSubclassAux 8 t c

end PyExc

namespace EmailSender

/-- Whether a raised exception of class `t` is caught by
`except RETRYABLE_EXCEPTIONS` in `mail/sender.py`: a Python `except`
clause matches when the raised class is any listed class or a subclass of
one, and the tuple lists `socket.timeout`, `TimeoutError` and `OSError`. -/
def matchesRetryable (t : PyExc) : Bool :=
  t.isSubclass .socketTimeout || t.isSubclass .timeoutError ||
    t.isSubclass .osError

/-- Outcome of one underlying attempt (one `smtplib.SMTP(...) starttls
login` sequence for `connect`, one `send_message` call for `send`): either
it returns, or it raises an exception of the given class. -/
inductive AttemptOutcome where
  | success
  | raised (t : PyExc)
deriving Repr, DecidableEq

/-- Observable outcome of the bounded-retry loop shared by
`EmailSender.connect` and `EmailSender.send`: how many underlying attempts
were made, how many `time.sleep(retry_delay)` pauses were taken between
attempts, and the raised exception class, if the loop ended by raising. -/
structure RetryTrace where
  attempts : Nat
  delays : Nat
  raisedExc : Option PyExc
deriving Repr, DecidableEq

/-- The `for attempt in range(retry_count + 1)` loop of
`EmailSender.connect` and `EmailSender.send` in `mail/sender.py`, with the
underlying attempt abstracted as `outcomes` (the outcome of the i-th
attempt, 0-based). A returning attempt ends the loop; a raised exception
matching `RETRYABLE_EXCEPTIONS` is remembered as `last_exception` and,
when attempts remain, is followed by one `time.sleep(retry_delay)` and a
retry, while on the final attempt the loop falls through and re-raises
`last_exception`; a raised exception not matching the tuple propagates
out of the loop at once. `remaining` counts the attempts left after the
current one, so the loop starts with `remaining = retry_count`. -/
def retryGo (outcomes : Nat → AttemptOutcome) (attempt : Nat) :
    Nat → RetryTrace
  | 0 =>
    match outcomes attempt with
    | .success => { attempts := 1, delays := 0, raisedExc := none }
    | .raised t => { attempts := 1, delays := 0, raisedExc := some t }
  | remaining + 1 =>
    match outcomes attempt with
    | .success => { attempts := 1, delays := 0, raisedExc := none }
    | .raised t =>
      if matchesRetryable t then
        let rest := retryGo outcomes (attempt + 1) remaining
        { attempts := rest.attempts + 1
          delays := rest.delays + 1
          raisedExc := rest.raisedExc }
      else
        { attempts := 1, delays := 0, raisedExc := some t }

/-- `EmailSender.connect` from `mail/sender.py`: the bounded-retry loop
run with `retry_count` extra attempts over the connect primitive. -/
def connect (retry_count : Nat) (outcomes : Nat → AttemptOutcome) :
    RetryTrace :=
  retryGo outcomes 0 retry_count

/-- `EmailSender.send` from `mail/sender.py`: the same bounded-retry loop
over the `send_message` primitive. -/
def send (retry_count : Nat) (outcomes : Nat → AttemptOutcome) :
    RetryTrace :=
  retryGo outcomes 0 retry_count

/-- The i-th attempt raises an exception caught by
`except RETRYABLE_EXCEPTIONS`. -/
def retryableAt (outcomes : Nat → AttemptOutcome) (i : Nat) : Prop :=
  ∃ t, outcomes i = .raised t ∧ matchesRetryable t = true

end EmailSender

namespace EmailScheduler

/-- What `EmailScheduler.start` in `scheduler/scheduler.py` registers with
the `schedule` library: the time-of-day string passed to
`schedule.every().day.at(...)` together with the timezone argument passed
to `at`, if any. -/
structure TriggerRegistration where
  at_time : String
  at_tz : Option String
deriving Repr, DecidableEq

/-- The trigger registration performed by `EmailScheduler.start`: when the
schedule is disabled it returns without registering anything; otherwise it
calls `schedule.every().day.at(schedule_time).do(self._job)`, passing only
`self.config.schedule.time` and no timezone argument (the configured
timezone is read only for the two log lines). -/
def start_trigger (cfg : ScheduleConfig) : Option TriggerRegistration :=
  if cfg.enabled then some { at_time := cfg.time, at_tz := none }
  else none

/-- Modelled from the spec: the `schedule` library's firing rule for a
daily job, which is external to the repository. A registration with a
timezone argument fires at its time-of-day read on the wall clock of that
zone; a registration without one fires on the wall clock of the process's
local timezone. Returns the zone whose wall clock determines firing. -/
def trigger_fire_zone (reg : TriggerRegistration) (local_tz : String) :
    String :=
  reg.at_tz.getD local_tz

end EmailScheduler

namespace Main

/-- Observable outcome of the `--run-once` branch of `main` in `main.py`:
whether the `Completed with N errors` line was logged, and the process
exit status. -/
structure RunOnceExit where
  error_logged : Bool
  exit_status : Nat
deriving Repr, DecidableEq

/-- The `--run-once` branch of `main` in `main.py`: it runs
`scheduler.run_once()`, logs `Completed with {len(result.errors)} errors`
when `result.errors` is non-empty, and then returns from `main` normally —
there is no `sys.exit` call and no raised exception on this path, so the
interpreter exits with status 0 whether or not errors occurred. -/
def run_once_mode (result : ProcessingResult) : RunOnceExit :=
  { error_logged := !result.errors.isEmpty
    exit_status := 0 }

end Main

/-- Concrete per-email step for witness instances: raises `boom` on the
email with uid `1`, succeeds elsewhere. -/
def wStep3 : PerEmailStep :=
  fun e => if e.uid = "1" then .error "boom" else .ok ()

/-- Concrete two-email batch for witness instances. -/
def wEmails3 : List Email :=
  [{ uid := "1", subject := "s", sender := "a", date := 0, body_text := "b" },
   { uid := "2", subject := "t", sender := "c", date := 1, body_text := "d" }]

/-- Concrete IMAP store stub for the C9 instances: raises a protocol error
on uid `1`, succeeds elsewhere. -/
def wStore9 : String → Except String Unit :=
  fun u => if u = "1" then .error "protocol" else .ok ()

/-! Helper lemmas about the embedded operations. -/

namespace EmailProcessingPipeline

theorem processLoop_fst (step : PerEmailStep) (emails : List Email) :
    (processLoop step emails).1 = emails.countP (stepSucceeds step) := by
  induction emails with
  | nil => rfl
  | cons e rest ih =>
    cases h : step e <;>
      simp [processLoop, List.countP_cons, stepSucceeds, h, ih]

theorem processLoop_snd (step : PerEmailStep) (emails : List Email) :
    (processLoop step emails).2 = emails.filterMap (errEntry step) := by
  induction emails with
  | nil => rfl
  | cons e rest ih =>
    cases h : step e <;>
      simp [processLoop, List.filterMap_cons, errEntry, h, ih]

theorem process_emails_sent (step : PerEmailStep) (emails : List Email) :
    (process step emails).emails_sent = emails.countP (stepSucceeds step) := by
  cases emails with
  | nil => rfl
  | cons e rest => simpa [process] using processLoop_fst step (e :: rest)

theorem process_errors (step : PerEmailStep) (emails : List Email) :
    (process step emails).errors = emails.filterMap (errEntry step) := by
  cases emails with
  | nil => rfl
  | cons e rest => simpa [process] using processLoop_snd step (e :: rest)

theorem process_emails_processed (step : PerEmailStep) (emails : List Email) :
    (process step emails).emails_processed = emails.length := by
  cases emails with
  | nil => rfl
  | cons e rest => simp [process]

end EmailProcessingPipeline

namespace EmailSender

theorem retryGo_attempts_le (outcomes : Nat → AttemptOutcome)
    (attempt remaining : Nat) :
    (retryGo outcomes attempt remaining).attempts ≤ remaining + 1 := by
  induction remaining generalizing attempt with
  | zero => cases h : outcomes attempt <;> simp [retryGo, h]
  | succ r ih =>
    cases h : outcomes attempt with
    | success => simp [retryGo, h]
    | raised t =>
      by_cases hm : matchesRetryable t
      · simpa [retryGo, h, hm] using ih (attempt + 1)
      · simp [retryGo, h, hm]

theorem retryGo_success_after (outcomes : Nat → AttemptOutcome)
    (k : Nat) :
    ∀ attempt remaining, k ≤ remaining →
      (∀ i, i < k → retryableAt outcomes (attempt + i)) →
      outcomes (attempt + k) = .success →
      retryGo outcomes attempt remaining
        = { attempts := k + 1, delays := k, raisedExc := none } := by
  induction k with
  | zero =>
    intro attempt remaining _ _ hs
    rw [Nat.add_zero] at hs
    cases remaining <;> simp [retryGo, hs]
  | succ k ih =>
    intro attempt remaining hk h hs
    cases remaining with
    | zero => omega
    | succ r =>
      obtain ⟨t, ht, hmt⟩ := h 0 (Nat.succ_pos k)
      rw [Nat.add_zero] at ht
      have hrec := ih (attempt + 1) r (Nat.succ_le_succ_iff.mp hk)
        (fun i hi => by
          have := h (i + 1) (Nat.succ_lt_succ hi)
          rwa [Nat.add_comm i 1, ← Nat.add_assoc] at this)
        (by have e : attempt + 1 + k = attempt + (k + 1) := by omega
            rw [e]; exact hs)
      simp [retryGo, ht, hmt, hrec]

theorem retryGo_immediate_raise_after (outcomes : Nat → AttemptOutcome)
    (k : Nat) :
    ∀ attempt remaining t, k ≤ remaining →
      (∀ i, i < k → retryableAt outcomes (attempt + i)) →
      outcomes (attempt + k) = .raised t →
      matchesRetryable t = false →
      retryGo outcomes attempt remaining
        = { attempts := k + 1, delays := k, raisedExc := some t } := by
  induction k with
  | zero =>
    intro attempt remaining t _ _ hs hm
    rw [Nat.add_zero] at hs
    cases remaining <;> simp [retryGo, hs, hm]
  | succ k ih =>
    intro attempt remaining t hk h hs hm
    cases remaining with
    | zero => omega
    | succ r =>
      obtain ⟨t0, ht0, hmt0⟩ := h 0 (Nat.succ_pos k)
      rw [Nat.add_zero] at ht0
      have hrec := ih (attempt + 1) r t (Nat.succ_le_succ_iff.mp hk)
        (fun i hi => by
          have := h (i + 1) (Nat.succ_lt_succ hi)
          rwa [Nat.add_comm i 1, ← Nat.add_assoc] at this)
        (by have e : attempt + 1 + k = attempt + (k + 1) := by omega
            rw [e]; exact hs) hm
      simp [retryGo, ht0, hmt0, hrec]

theorem retryGo_all_retryable (outcomes : Nat → AttemptOutcome) :
    ∀ attempt remaining t,
      (∀ i, i ≤ remaining → retryableAt outcomes (attempt + i)) →
      outcomes (attempt + remaining) = .raised t →
      retryGo outcomes attempt remaining
        = { attempts := remaining + 1, delays := remaining,
            raisedExc := some t } := by
  intro attempt remaining
  induction remaining generalizing attempt with
  | zero =>
    intro t _ hlast
    rw [Nat.add_zero] at hlast
    simp [retryGo, hlast]
  | succ r ih =>
    intro t h hlast
    obtain ⟨t0, ht0, hmt0⟩ := h 0 (Nat.zero_le _)
    rw [Nat.add_zero] at ht0
    have hrec := ih (attempt + 1) t
      (fun i hi => by
        have := h (i + 1) (Nat.succ_le_succ hi)
        rwa [Nat.add_comm i 1, ← Nat.add_assoc] at this)
      (by have e : attempt + 1 + r = attempt + (r + 1) := by omega
          rw [e]; exact hlast)
    simp [retryGo, ht0, hmt0, hrec]

end EmailSender

namespace EmailReader

theorem mark_as_read_append {ε : Type} (store : String → Except ε Unit)
    (pre : List String) :
    (∀ u, u ∈ pre → store u = .ok ()) →
    ∀ uid post e, store uid = .error e →
      mark_as_read store (pre ++ uid :: post) = (pre ++ [uid], some e) := by
  induction pre with
  | nil =>
    intro _ uid post e hu
    simp [mark_as_read, hu]
  | cons p ps ih =>
    intro hpre uid post e hu
    have hp : store p = .ok () := hpre p (List.mem_cons_self p ps)
    have ht := ih (fun u h => hpre u (List.mem_cons_of_mem p h))
      uid post e hu
    simp [mark_as_read, hp, ht]

theorem add_label_attempts_all {ε : Type} (store : String → Except ε Unit)
    (uids : List String) :
    add_label store uids = uids := by
  induction uids with
  | nil => rfl
  | cons u us ih => cases h : store u <;> simp [add_label, h, ih]

end EmailReader

/-! Claim theorems. -/

/-- Claim C1: in the production pipeline's `process(messages)`, the sent
counter counts exactly the messages whose transform-and-deliver step
completed successfully, so it is incremented only on a message's successful
delivery, and a message whose transformation or delivery raises contributes
nothing to `emails_sent`. -/
theorem C1_sent_only_on_successful_delivery
    (step : PerEmailStep) (emails : List Email) :
    (EmailProcessingPipeline.process step emails).emails_sent
      = emails.countP (stepSucceeds step) :=
  EmailProcessingPipeline.process_emails_sent step emails

/-- Claim C2: for every input list and both pipeline variants the result
satisfies `emails_sent ≤ emails_processed`, and the no-op variant returns
`emails_processed = length`, `emails_sent = 0` and no errors. -/
theorem C2_sent_le_processed_both_variants :
    (∀ (step : PerEmailStep) (emails : List Email),
      (EmailProcessingPipeline.process step emails).emails_sent
        ≤ (EmailProcessingPipeline.process step emails).emails_processed) ∧
    (∀ emails : List Email,
      PlaceholderPipeline.process emails
        = { emails_processed := emails.length
            emails_sent := 0
            errors := [] }) ∧
    (∀ emails : List Email,
      (PlaceholderPipeline.process emails).emails_sent
        ≤ (PlaceholderPipeline.process emails).emails_processed) := by
  refine ⟨fun step emails => ?_, fun emails => rfl, fun emails => ?_⟩
  · cases emails with
    | nil => simp [EmailProcessingPipeline.process]
    | cons e rest =>
      rw [EmailProcessingPipeline.process_emails_sent,
        EmailProcessingPipeline.process_emails_processed]
      exact List.countP_le_length _
  · simp [PlaceholderPipeline.process]

/-- Claim C3: in the production pipeline, a message whose processing raises
has the formatted error string `Failed to process <uid>: <exception>`
recorded in the result's error list, every message of the batch is still
processed (`emails_processed` equals the input length and the error list is
exactly the per-message error entries of the whole input, in order). -/
theorem C3_per_message_error_isolation
    (step : PerEmailStep) (emails : List Email) (e : Email) (msg : String)
    (he : e ∈ emails) (hstep : step e = .error msg) :
    failureString e msg
        ∈ (EmailProcessingPipeline.process step emails).errors ∧
    (EmailProcessingPipeline.process step emails).emails_processed
        = emails.length ∧
    (EmailProcessingPipeline.process step emails).errors
        = emails.filterMap (errEntry step) := by
  refine ⟨?_, EmailProcessingPipeline.process_emails_processed step emails,
    EmailProcessingPipeline.process_errors step emails⟩
  rw [EmailProcessingPipeline.process_errors]
  exact List.mem_filterMap.mpr ⟨e, he, by simp [errEntry, hstep]⟩

/-- Witness for C3 at a concrete batch. -/
theorem C3_witness :
    failureString
        { uid := "1", subject := "s", sender := "a", date := 0,
          body_text := "b" } "boom"
      ∈ (EmailProcessingPipeline.process wStep3 wEmails3).errors ∧
    (EmailProcessingPipeline.process wStep3 wEmails3).emails_processed
      = wEmails3.length ∧
    (EmailProcessingPipeline.process wStep3 wEmails3).errors
      = wEmails3.filterMap (errEntry wStep3) :=
  C3_per_message_error_isolation wStep3 wEmails3 _ "boom"
    (by simp [wEmails3]) rfl

/-- Claim C4: `run_once` makes exactly one mark-as-read call carrying
exactly the uids of all fetched messages if and only if the pipeline
result's processed count is at least 1 and the source configuration's
mark-as-read flag is set; otherwise no mark-as-read call occurs. -/
theorem C4_fetch_then_mark_sequencing
    (source : SourceEmailConfig) (emails : List Email)
    (processFn : List Email → ProcessingResult) :
    ((EmailScheduler.run_once source emails processFn).markCalls
        = [emails.map Email.uid]
      ↔ 1 ≤ (processFn emails).emails_processed
          ∧ source.mark_as_read = true) ∧
    (¬(1 ≤ (processFn emails).emails_processed
          ∧ source.mark_as_read = true) →
      (EmailScheduler.run_once source emails processFn).markCalls = []) := by
  by_cases h : 1 ≤ (processFn emails).emails_processed
      ∧ source.mark_as_read = true
  · have hp : 0 < (processFn emails).emails_processed
        ∧ source.mark_as_read = true := h
    exact ⟨iff_of_true (by simp only [EmailScheduler.run_once, if_pos hp]) h,
      fun hc => absurd h hc⟩
  · have hn : ¬(0 < (processFn emails).emails_processed
        ∧ source.mark_as_read = true) := h
    refine ⟨iff_of_false ?_ h, fun _ => ?_⟩ <;>
      simp [EmailScheduler.run_once, if_neg hn]

/-- Claim C6: with `unread_only` and a positive `fetch_days` the query is
the `UNSEEN` predicate and the `SINCE` clause joined by a space inside a
single pair of parentheses; with neither predicate it is exactly `ALL`;
with only `unread_only` it is exactly `(UNSEEN)`. -/
theorem C6_search_criteria_construction (fetch_days : Nat)
    (date_str : String) (h : 0 < fetch_days) :
    EmailReader.build_search_criteria true fetch_days date_str
      = "(UNSEEN SINCE \"" ++ date_str ++ "\")" ∧
    EmailReader.build_search_criteria false 0 date_str = "ALL" ∧
    EmailReader.build_search_criteria true 0 date_str = "(UNSEEN)" := by
  refine ⟨?_, rfl, rfl⟩
  apply String.ext
  simp [EmailReader.build_search_criteria, h, String.intercalate,
    String.intercalate.go]

/-- Witness for C6 at a concrete lookback window and date. -/
theorem C6_witness :
    EmailReader.build_search_criteria true 7 "05-Oct-2026"
      = "(UNSEEN SINCE \"05-Oct-2026\")" ∧
    EmailReader.build_search_criteria false 0 "05-Oct-2026" = "ALL" ∧
    EmailReader.build_search_criteria true 0 "05-Oct-2026" = "(UNSEEN)" := by
  have h := C6_search_criteria_construction 7 "05-Oct-2026" (by decide)
  exact ⟨h.1.trans rfl, h.2.1, h.2.2⟩

/-- Claim C7 (code bug): `start()` registers the daily trigger by calling
`schedule.every().day.at(schedule_time).do(...)` with no timezone
argument, so the trigger fires on the wall clock of the process's local
timezone, not the configured one — here evaluated at the failing
configuration (configured zone `Europe/Warsaw`, process-local zone `UTC`):
the registration carries no timezone and the firing zone is `UTC`. The
class's own docstring promises scheduling "with timezone support via
Python's zoneinfo module", but the configured zone is only read for two
log lines. -/
theorem C7_trigger_fires_in_local_timezone :
    EmailScheduler.start_trigger
        { time := "12:00", timezone := "Europe/Warsaw", enabled := true }
      = some { at_time := "12:00", at_tz := none } ∧
    EmailScheduler.trigger_fire_zone
        { at_time := "12:00", at_tz := none } "UTC" = "UTC" ∧
    ("UTC" : String) ≠ "Europe/Warsaw" := by
  refine ⟨rfl, rfl, ?_⟩
  decide

/-- Claim C8 counterexample: a run-once cycle whose result carries one
error still ends with exit status 0, so the exit status is not non-zero
when errors are present. -/
theorem C8_counterexample :
    (Main.run_once_mode
        { emails_processed := 1, emails_sent := 0,
          errors := ["Failed to process 1: boom"] }).exit_status = 0 ∧
    ({ emails_processed := 1, emails_sent := 0,
        errors := ["Failed to process 1: boom"] }
      : ProcessingResult).errors ≠ [] := by
  exact ⟨rfl, by decide⟩

/-- Claim C8 (amended): in run-once mode, after the single cycle
completes, a completion-with-errors line is logged exactly when the
returned result contains at least one error, but the process exit status
is 0 in every case — it does not reflect whether errors occurred. -/
theorem C8_amended_run_once_exit (result : ProcessingResult) :
    (Main.run_once_mode result).exit_status = 0 ∧
    ((Main.run_once_mode result).error_logged = true
      ↔ result.errors ≠ []) := by
  refine ⟨rfl, ?_⟩
  cases h : result.errors <;> simp [Main.run_once_mode, h]

/-- Claim C9 counterexample: with a store raising a protocol error on uid
`1`, `mark_as_read(["1", "2"])` aborts after the failing id — uid `2` is
never attempted and the error propagates — so the operation is not
best-effort per id. -/
theorem C9_counterexample :
    EmailReader.mark_as_read wStore9 ["1", "2"] = (["1"], some "protocol") ∧
    (EmailReader.mark_as_read wStore9 ["1", "2"]).1 ≠ ["1", "2"] ∧
    (EmailReader.mark_as_read wStore9 ["1", "2"]).2 ≠ none := by
  refine ⟨rfl, by decide, by decide⟩

/-- Claim C9 (amended): `mark_as_read` attempts ids in order but stops at
the first id whose store raises, propagating that error with the later
ids unattempted; the best-effort per-id behavior (log and continue on a
per-id protocol error) belongs to `add_label`, which attempts every id
regardless of per-id failures. -/
theorem C9_amended_mark_aborts_label_continues {ε : Type}
    (store : String → Except ε Unit) (pre post : List String)
    (uid : String) (e : ε)
    (hpre : ∀ u, u ∈ pre → store u = .ok ())
    (hu : store uid = .error e) :
    EmailReader.mark_as_read store (pre ++ uid :: post)
      = (pre ++ [uid], some e) ∧
    (∀ uids : List String, EmailReader.add_label store uids = uids) :=
  ⟨EmailReader.mark_as_read_append store pre hpre uid post e hu,
    EmailReader.add_label_attempts_all store⟩

/-- Witness for C9 at a concrete store failing on uid `1`. -/
theorem C9_witness :
    EmailReader.mark_as_read wStore9 ["0", "1", "2"]
      = (["0", "1"], some "protocol") ∧
    EmailReader.add_label wStore9 ["0", "1", "2"] = ["0", "1", "2"] := by
  have h := C9_amended_mark_aborts_label_continues wStore9 ["0"] ["2"]
    "1" "protocol"
    (by
      intro u hu
      simp only [List.mem_singleton] at hu
      subst hu
      rfl)
    rfl
  exact ⟨h.1, h.2 ["0", "1", "2"]⟩

/-- Claim C10: when the mailbox search replies with a non-OK status,
`fetch_emails` returns the empty list without raising and attempts no
individual message fetch. -/
theorem C10_non_ok_search_returns_empty (status : String)
    (ids : List String) (fetch_single : String → Option Email)
    (h : status ≠ "OK") :
    EmailReader.fetch_emails status ids fetch_single
      = { emails := [], fetchedUids := [] } := by
  simp [EmailReader.fetch_emails, h]

/-- Witness for C10 at a concrete failed search. -/
theorem C10_witness :
    EmailReader.fetch_emails "NO" ["1", "2"] (fun _ => none)
      = { emails := [], fetchedUids := [] } :=
  C10_non_ok_search_returns_empty "NO" ["1", "2"] (fun _ => none)
    (by decide)

/-- Claim C5 counterexample: an authentication rejection
(`SMTPAuthenticationError`) does not propagate immediately. Its class is a
subclass of `OSError` (via `SMTPException`), so it matches
`RETRYABLE_EXCEPTIONS`: with `retry_count = 2` and every attempt raising
it, `connect()` makes 3 attempts with 2 inter-attempt delays instead of
the single attempt the claim predicts. -/
theorem C5_counterexample :
    EmailSender.connect 2 (fun _ => .raised .smtpAuthenticationError)
      = { attempts := 3, delays := 2,
          raisedExc := some .smtpAuthenticationError } ∧
    EmailSender.matchesRetryable .smtpAuthenticationError = true ∧
    PyExc.isSubclass .smtpAuthenticationError .osError = true ∧
    (EmailSender.connect 2
        (fun _ => .raised .smtpAuthenticationError)).attempts ≠ 1 := by
  refine ⟨rfl, rfl, rfl, ?_⟩
  decide

/-- Claim C5 (amended): for every `retry_count = n`, `connect()` and
`send()` attempt the underlying operation at most `n + 1` times; an
attempt raising an exception matching `RETRYABLE_EXCEPTIONS`
(`socket.timeout`, `TimeoutError`, `OSError` and their subclasses, which
include every `smtplib` exception such as an authentication rejection) is
followed by one `retry_delay` pause and a retry while attempts remain; if
all `n + 1` attempts raise matching exceptions the last one is re-raised
after exactly `n` inter-attempt delays; an exception not matching the
tuple (e.g. `RuntimeError`) propagates immediately, without further
attempts or delays; `send` runs the identical loop. -/
theorem C5_amended_bounded_retry
    (outcomes : Nat → EmailSender.AttemptOutcome) (n : Nat) :
    ((EmailSender.connect n outcomes).attempts ≤ n + 1 ∧
      (EmailSender.send n outcomes).attempts ≤ n + 1) ∧
    ((∀ i, i ≤ n → EmailSender.retryableAt outcomes i) →
      ∀ t, outcomes n = .raised t →
        EmailSender.connect n outcomes
          = { attempts := n + 1, delays := n, raisedExc := some t }) ∧
    (∀ k t, k ≤ n → (∀ i, i < k → EmailSender.retryableAt outcomes i) →
      outcomes k = .raised t → EmailSender.matchesRetryable t = false →
        EmailSender.connect n outcomes
          = { attempts := k + 1, delays := k, raisedExc := some t }) ∧
    (∀ k, k ≤ n → (∀ i, i < k → EmailSender.retryableAt outcomes i) →
      outcomes k = .success →
        EmailSender.connect n outcomes
          = { attempts := k + 1, delays := k, raisedExc := none }) ∧
    EmailSender.send n outcomes = EmailSender.connect n outcomes := by
  refine ⟨⟨EmailSender.retryGo_attempts_le outcomes 0 n,
      EmailSender.retryGo_attempts_le outcomes 0 n⟩, ?_, ?_, ?_, rfl⟩
  · intro h t ht
    exact EmailSender.retryGo_all_retryable outcomes 0 n t
      (fun i hi => by simpa using h i hi)
      (by simpa using ht)
  · intro k t hk h ht hm
    exact EmailSender.retryGo_immediate_raise_after outcomes k 0 n t hk
      (fun i hi => by simpa using h i hi)
      (by simpa using ht) hm
  · intro k hk h ht
    exact EmailSender.retryGo_success_after outcomes k 0 n hk
      (fun i hi => by simpa using h i hi)
      (by simpa using ht)

/-- Witness for C5 at concrete relays: a relay that always times out with
`retry_count = 2` raises the timeout after 3 attempts and 2 delays; a
relay raising a non-matching `RuntimeError` on the second attempt
propagates it after 2 attempts and 1 delay; a relay failing twice
transiently then succeeding connects after 3 attempts and 2 delays. -/
theorem C5_witness :
    EmailSender.connect 2 (fun _ => .raised .socketTimeout)
      = { attempts := 3, delays := 2, raisedExc := some .socketTimeout } ∧
    EmailSender.connect 2
        (fun i => if i = 0 then .raised .socketTimeout
          else .raised .runtimeError)
      = { attempts := 2, delays := 1, raisedExc := some .runtimeError } ∧
    EmailSender.connect 2
        (fun i => if i < 2 then .raised .socketTimeout else .success)
      = { attempts := 3, delays := 2, raisedExc := none } := by
  refine ⟨?_, ?_, ?_⟩
  · exact (C5_amended_bounded_retry (fun _ => .raised .socketTimeout) 2).2.1
      (fun i _ => ⟨.socketTimeout, rfl, rfl⟩) .socketTimeout rfl
  · refine (C5_amended_bounded_retry _ 2).2.2.1 1 .runtimeError (by omega)
      ?_ rfl rfl
    intro i hi
    have hi0 : i = 0 := by omega
    subst hi0
    exact ⟨.socketTimeout, rfl, rfl⟩
  · refine (C5_amended_bounded_retry _ 2).2.2.2.1 2 (by omega) ?_ rfl
    intro i hi
    refine ⟨.socketTimeout, ?_, rfl⟩
    simp only [if_pos hi]

/-- Witness for C4 at concrete cycles: with two fetched emails, a pipeline
counting both as processed and the mark-as-read flag set, exactly one mark
call with both uids occurs; with the flag cleared, none occurs. -/
theorem C4_witness :
    (EmailScheduler.run_once ⟨1, true⟩ wEmails3
        (fun es => ⟨es.length, 0, []⟩)).markCalls = [["1", "2"]] ∧
    (EmailScheduler.run_once ⟨1, false⟩ wEmails3
        (fun es => ⟨es.length, 0, []⟩)).markCalls = [] := by
  constructor
  · have h := (C4_fetch_then_mark_sequencing ⟨1, true⟩ wEmails3
      (fun es => ⟨es.length, 0, []⟩)).1.mpr ⟨by decide, rfl⟩
    simpa [wEmails3] using h
  · exact (C4_fetch_then_mark_sequencing ⟨1, false⟩ wEmails3
      (fun es => ⟨es.length, 0, []⟩)).2 (by decide)

end PolyglotPigeon
